import Mathlib

/-!
Shallow embedding of `src/backend/dependency.py` (class `DependencyManager`):
the dependency manifest model, the step executor `async_install`, the step
handlers, and the manifest resolver `get_dependency`.

External collaborators (download manager, process runner, registry writer,
cabinet extractor, filesystem, glob) live outside this file's source; they are
modelled as oracles bundled in `Ext` / `FetchExt`, and their visible actions
are recorded in an effect trace.  Widget interactions are recorded in an
event trace.  Python exceptions that escape a handler (KeyError/TypeError/
FileNotFoundError/extraction errors) and the `exit()` call in
`__step_cab_extract` are modelled as abnormal handler outcomes that abort the
step loop, exactly as the exception would abort the Python call.
-/

namespace Bottles

/-- Python f-string interpolation renders `None` as the text `"None"`;
this converts an optional manifest field the way an f-string would. -/
def pyStr : Option String → String
  | none => "None"
  | some s => s

/-- Python truthiness of an optional string field (`None` and `""` are falsy). -/
def optTruthy : Option String → Bool
  | none => false
  | some s => !(s == "")

/-- Splits a character list at the LAST occurrence of `sep`:
`some (before, after)` when `sep` occurs, `none` otherwise. -/
def splitLastAux (sep : Char) : List Char → Option (List Char × List Char)
  | [] => none
  | c :: rest =>
    match splitLastAux sep rest with
    | some (b, a) => some (c :: b, a)
    | none => if c == sep then some ([], rest) else none

/-- Model of `os.path.basename`: the part after the last slash. -/
def basename (s : String) : String :=
  match splitLastAux '/' s.data with
  | some (_, a) => ⟨a⟩
  | none => s

/-- Model of `os.path.splitext(s)[0]`: drop the extension of the last
path component (leading dots of the component are not an extension). -/
def splitextBase (s : String) : String :=
  let db :=
    match splitLastAux '/' s.data with
    | some (d, a) => (some d, a)
    | none => ((none : Option (List Char)), s.data)
  let base := db.2
  let dots := base.takeWhile (fun c => c == '.')
  let rest := base.drop dots.length
  let nb :=
    match splitLastAux '.' rest with
    | some (b, _) => dots ++ b
    | none => base
  match db.1 with
  | some d => ⟨d ++ '/' :: nb⟩
  | none => ⟨nb⟩

/-- Fuelled worker for `pyReplace`; the fuel is the input length, enough to
finish since a match consumes at least one character of input (the source
only uses non-empty patterns). -/
def replaceFuel (pat rep : List Char) : Nat → List Char → List Char
  | 0, l => l
  | _ + 1, [] => []
  | fuel + 1, c :: rest =>
    if pat.isPrefixOf (c :: rest) then
      rep ++ replaceFuel pat rep fuel ((c :: rest).drop pat.length)
    else c :: replaceFuel pat rep fuel rest

/-- Model of Python `str.replace`: replaces every non-overlapping
occurrence of `pat`, scanning left to right. -/
def pyReplace (s pat rep : String) : String :=
  ⟨replaceFuel pat.data rep.data s.data.length s.data⟩

/-- Model of Python `str.startswith`. -/
def pyStartsWith (s pre : String) : Bool :=
  pre.data.isPrefixOf s.data

/-- Model of the Python substring test `"*" in s` for a one-character
needle. -/
def pyContainsChar (s : String) (c : Char) : Bool :=
  s.data.contains c

/-- Model of Python `str.strip()`: remove leading and trailing
whitespace. -/
def pyStrip (s : String) : String :=
  ⟨(((s.data.dropWhile Char.isWhitespace).reverse.dropWhile Char.isWhitespace).reverse)⟩

/-- One manifest step: the YAML mapping carried by each entry of `Steps`.
Fields the handlers read with `step[...]` or `step.get(...)`; absent keys
are `none` (Python `None` / `KeyError`, see the handlers). -/
structure Step where
  action : String
  url : Option String := none
  file_name : Option String := none
  rename : Option String := none
  file_checksum : Option String := none
  dest : Option String := none
  dlls : Option (List String) := none
  fonts : Option (List String) := none
  dll : Option String := none
  type : Option String := none
  key : Option String := none
  value : Option String := none
  data : Option String := none
  name : Option String := none
  file : Option String := none
  arguments : Option String := none
  environment : Option String := none
deriving DecidableEq

/-- A parsed dependency manifest: the ordered step list and the optional
declared `Uninstaller` value. -/
structure Manifest where
  Steps : List Step
  Uninstaller : Option String := none
deriving DecidableEq

/-- The bottle configuration fields `async_install` reads and writes. -/
structure BottleConfig where
  Name : String
  Versioning : Bool
  Installed_Dependencies : List String
  Uninstallers : List (String × String)
deriving DecidableEq

/-- Widget observer calls emitted by the executor and the handlers. -/
inductive WEvent
  | setInstalled (b : Bool)
  | setErr
  | btnInstallSensitive
deriving DecidableEq

/-- Visible actions on external collaborators and the filesystem,
recorded in order of execution. -/
inductive Effect
  | snapshot (label : String)
  | newDownload (fileName : String)
  | removeDownload
  | removeFile (path : String)
  | runExecutable (path : String) (args env : Option String)
  | runCommand (cmd : String)
  | runUninstaller (uuid : String)
  | cabExtract (path name : String)
  | rmtree (path : String)
  | makedirs (path : String)
  | extractArchive (src outdir : String)
  | copyfile (src dst : String)
  | regAdd (key value data keyType : Option String)
deriving DecidableEq

/-- How a handler (or the step loop) terminates: normal return, the
`exit()` call in `__step_cab_extract`, or an uncaught Python exception. -/
inductive HOutcome
  | ok
  | exited
  | raised
deriving DecidableEq

/-- Result of one step handler: termination kind, widget events, external
effects, and the handler's Python return value (`None` or `False`). -/
structure HandlerResult where
  outcome : HOutcome := .ok
  events : List WEvent := []
  effects : List Effect := []
  ret : Option Bool := none
deriving DecidableEq

/-- Oracles for the external collaborators of the step handlers: the
download manager (`component_manager.download` returns a `bool`), the
cabinet extractor `CabExtract().run`, `validate_url`, the filesystem
(`shutil.copyfile` / `patoolib.extract_archive` succeed or raise,
`os.path.exists`, `glob`), `Runner().run_command` output, the path
constants `Paths.temp` / `Paths.bottles`, and `Runner().get_bottle_path`
(a function of the bottle's name). -/
structure Ext where
  pathsTemp : String
  pathsBottles : String
  bottlePath : String → String
  download : Option String → Option String → Option String → Option String → Bool
  cabRun : String → String → Bool
  validUrl : String → Bool
  copyfileOk : String → String → Bool
  extractOk : String → String → Bool
  pathExists : String → Bool
  globMatch : String → List String
  runCommandOut : String → String → String

/-- Effects of lines 111-126 of the source: the optional versioning
snapshot and the download-manager entry, both before manifest resolution. -/
def preEffects (config : BottleConfig) (depName : String) : List Effect :=
  (if config.Versioning then [Effect.snapshot ("before " ++ depName)] else [])
    ++ [Effect.newDownload depName]

/-- Modelled from the spec: `manager.update_config` (the ledger persistence
collaborator, spec §4.3/§6) is not under src/.  Per the spec it stores the
uninstaller reference keyed by dependency name under the nested
`Uninstallers` mapping, overwriting any prior entry for that dependency. -/
def setAssoc (m : List (String × String)) (k v : String) : List (String × String) :=
  if m.any (fun p => p.1 == k) then
    m.map (fun p => if p.1 == k then (k, v) else p)
  else m ++ [(k, v)]

/-- Handler `__step_delete_sys32_dlls`: removes each named DLL from the
bottle's system32 directory; `FileNotFoundError` is caught and logged.
`step["dlls"]` is a required key (missing key raises). -/
def step_delete_sys32_dlls (ext : Ext) (name : String) (step : Step) : HandlerResult :=
  match step.dlls with
  | none => { outcome := .raised }
  | some dlls =>
    { effects := dlls.map (fun dll =>
        Effect.removeFile
          (ext.pathsBottles ++ "/" ++ name ++ "/drive_c/windows/system32/" ++ dll)) }

/-- Handler `__step_install_exe_msi`: downloads the installer and runs it
synchronously; on download failure it re-enables the widget's install
button and returns `False` (a normal return, not an exception). -/
def step_install_exe_msi (ext : Ext) (widget : Bool) (step : Step) : HandlerResult :=
  if ext.download step.url step.file_name step.rename step.file_checksum then
    let file := if optTruthy step.rename then pyStr step.rename else pyStr step.file_name
    { effects := [Effect.runExecutable (ext.pathsTemp ++ "/" ++ file)
        step.arguments step.environment] }
  else
    { events := if widget then [WEvent.btnInstallSensitive] else [],
      ret := some false }

/-- Handler `__step_uninstall`: greps the runner's uninstaller listing for
the file name and, when the stripped id is non-empty, runs the
uninstaller.  `step["file_name"]` is a required key. -/
def step_uninstall (ext : Ext) (name : String) (step : Step) : HandlerResult :=
  match step.file_name with
  | none => { outcome := .raised }
  | some fn =>
    let command := "uninstaller --list | grep \x27" ++ fn ++ "\x27 | cut -f1 -d\\|"
    let uuid := pyStrip (ext.runCommandOut name command)
    { effects := [Effect.runCommand command]
        ++ (if uuid = "" then [] else [Effect.runUninstaller uuid]) }

/-- Handler `__step_cab_extract`: for a validated URL, downloads and runs
the cabinet extractor twice (archive name and its stem), marking the widget
error state on each failure; for a pre-staged `temp/` path, a single failed
extraction marks the error state and then calls `exit()`.  `step["url"]` is
a required key. -/
def step_cab_extract (ext : Ext) (widget : Bool) (step : Step) : HandlerResult :=
  match step.url with
  | none => { outcome := .raised }
  | some u =>
    if ext.validUrl u then
      if ext.download step.url step.file_name step.rename step.file_checksum then
        let file := if optTruthy step.rename then pyStr step.rename else pyStr step.file_name
        let ok1 := ext.cabRun (ext.pathsTemp ++ "/" ++ file) file
        let ok2 := ext.cabRun (ext.pathsTemp ++ "/" ++ file) (splitextBase file)
        { events := (if !ok1 && widget then [WEvent.setErr] else [])
            ++ (if !ok2 && widget then [WEvent.setErr] else []),
          effects := [Effect.cabExtract (ext.pathsTemp ++ "/" ++ file) file,
            Effect.cabExtract (ext.pathsTemp ++ "/" ++ file) (splitextBase file)] }
      else { }
    else if pyStartsWith u "temp/" then
      let path := pyReplace u "temp/" (ext.pathsTemp ++ "/")
      let file_path := if optTruthy step.rename then splitextBase (pyStr step.rename)
                       else splitextBase (pyStr step.file_name)
      if ext.cabRun (path ++ "/" ++ pyStr step.file_name) file_path then
        { effects := [Effect.cabExtract (path ++ "/" ++ pyStr step.file_name) file_path] }
      else
        { outcome := .exited,
          events := if widget then [WEvent.setErr] else [],
          effects := [Effect.cabExtract (path ++ "/" ++ pyStr step.file_name) file_path] }
    else { }

/-- Handler `__step_archive_extract`: downloads, removes any existing
extraction directory named after the archive's stem, recreates it, and
extracts; `patoolib.extract_archive` raises on failure.  When neither
`rename` nor `file_name` is present, `os.path.splitext(None)` raises. -/
def step_archive_extract (ext : Ext) (step : Step) : HandlerResult :=
  if ext.download step.url step.file_name step.rename step.file_checksum then
    match (if optTruthy step.rename then step.rename else step.file_name) with
    | none => { outcome := .raised }
    | some file =>
      let archive_name := splitextBase file
      let dir := ext.pathsTemp ++ "/" ++ archive_name
      { outcome := if ext.extractOk (ext.pathsTemp ++ "/" ++ file) dir then .ok else .raised,
        effects := (if ext.pathExists dir then [Effect.rmtree dir] else [])
          ++ [Effect.makedirs dir,
              Effect.extractArchive (ext.pathsTemp ++ "/" ++ file) dir] }
  else { }

/-- Copy loop of `__step_install_fonts`: each font is copied into the
bottle's Fonts directory; a failing `shutil.copyfile` raises (uncaught). -/
def copyFonts (ext : Ext) (path bp : String) : List String → (List Effect × HOutcome)
  | [] => ([], .ok)
  | f :: rest =>
    if ext.copyfileOk (path ++ "/" ++ f) (bp ++ "/drive_c/windows/Fonts/" ++ f) then
      let t := copyFonts ext path bp rest
      (Effect.copyfile (path ++ "/" ++ f) (bp ++ "/drive_c/windows/Fonts/" ++ f) :: t.1, t.2)
    else ([], .raised)

/-- Handler `__step_install_fonts`: `step["url"]` is a required key and
`step.get("fonts")` must be iterable, otherwise the handler raises. -/
def step_install_fonts (ext : Ext) (name : String) (step : Step) : HandlerResult :=
  match step.url with
  | none => { outcome := .raised }
  | some u =>
    let path := pyReplace u "temp/" (ext.pathsTemp ++ "/")
    match step.fonts with
    | none => { outcome := .raised }
    | some fonts =>
      let r := copyFonts ext path (ext.bottlePath name) fonts
      { outcome := r.2, effects := r.1 }

/-- Copy loop of the wildcard branch of `__step_copy_dll`: each glob match
is copied into the destination directory under its own base name; a failing
copy raises `FileNotFoundError`, caught by the handler. -/
def copyGlobFiles (ext : Ext) (destDir : String) : List String → (List Effect × Bool)
  | [] => ([], true)
  | fg :: rest =>
    if ext.copyfileOk fg (destDir ++ "/" ++ basename fg) then
      let t := copyGlobFiles ext destDir rest
      (Effect.copyfile fg (destDir ++ "/" ++ basename fg) :: t.1, t.2)
    else ([], false)

/-- Handler `__step_copy_dll`: with a wildcard in `file_name`, copies every
glob match into `drive_c/{dest}/{basename}`; otherwise copies the single
file to `drive_c/{dest}` verbatim.  `FileNotFoundError` is caught and the
handler returns `False`; a missing `file_name` raises `TypeError` (not
caught); `step["url"]` is a required key. -/
def step_copy_dll (ext : Ext) (name : String) (step : Step) : HandlerResult :=
  match step.url with
  | none => { outcome := .raised }
  | some u =>
    let path := pyReplace u "temp/" (ext.pathsTemp ++ "/")
    let bp := ext.bottlePath name
    match step.file_name with
    | none => { outcome := .raised }
    | some fn =>
      if pyContainsChar fn '*' then
        let r := copyGlobFiles ext (bp ++ "/drive_c/" ++ pyStr step.dest)
          (ext.globMatch (path ++ "/" ++ fn))
        { effects := r.1, ret := if r.2 then none else some false }
      else
        if ext.copyfileOk (path ++ "/" ++ fn) (bp ++ "/drive_c/" ++ pyStr step.dest) then
          { effects := [Effect.copyfile (path ++ "/" ++ fn)
              (bp ++ "/drive_c/" ++ pyStr step.dest)] }
        else { ret := some false }

/-- Handler `__step_override_dll`: with a truthy `temp/` url, writes one
DLL-override entry per glob match using the match's stem as value;
otherwise writes a single entry with the step's `dll` value. -/
def step_override_dll (ext : Ext) (step : Step) : HandlerResult :=
  let general : HandlerResult :=
    { effects := [Effect.regAdd
        (some "HKEY_CURRENT_USER\\Software\\Wine\\DllOverrides")
        step.dll step.type none] }
  match step.url with
  | some u =>
    if !(u == "") && pyStartsWith u "temp/" then
      let path := (pyReplace u "temp/" (ext.pathsTemp ++ "/")) ++ "/" ++ pyStr step.dll
      { effects := (ext.globMatch path).map (fun dll =>
          Effect.regAdd (some "HKEY_CURRENT_USER\\Software\\Wine\\DllOverrides")
            (some (splitextBase (basename dll))) step.type none) }
    else general
  | none => general

/-- Handler `__step_set_register_key`: writes the step's key/value/data/type
tuple verbatim through the registry collaborator. -/
def step_set_register_key (step : Step) : HandlerResult :=
  { effects := [Effect.regAdd step.key step.value step.data step.type] }

/-- Handler `__step_register_font`: writes a fixed-location font
registration entry. -/
def step_register_font (step : Step) : HandlerResult :=
  { effects := [Effect.regAdd
      (some "HKEY_LOCAL_MACHINE\\Software\\Microsoft\\Windows NT\\CurrentVersion\\Fonts")
      step.name step.file none] }

/-- The step dispatch of `async_install` (lines 146-212): a chain of
action-string tests over disjoint action names; an unrecognized action is
silently skipped. -/
def dispatch (ext : Ext) (name : String) (widget : Bool) (step : Step) : HandlerResult :=
  if step.action = "delete_sys32_dlls" then step_delete_sys32_dlls ext name step
  else if step.action = "install_exe" ∨ step.action = "install_msi" then
    step_install_exe_msi ext widget step
  else if step.action = "uninstall" then step_uninstall ext name step
  else if step.action = "cab_extract" then step_cab_extract ext widget step
  else if step.action = "archive_extract" then step_archive_extract ext step
  else if step.action = "install_cab_fonts" ∨ step.action = "install_fonts" then
    step_install_fonts ext name step
  else if step.action = "copy_cab_dll" ∨ step.action = "copy_dll" then
    step_copy_dll ext name step
  else if step.action = "override_dll" then step_override_dll ext step
  else if step.action = "set_register_key" then step_set_register_key step
  else if step.action = "register_font" then step_register_font step
  else { }

/-- Step kinds whose branch sets `has_no_uninstaller = True` before calling
the handler (lines 171-194). -/
def extractionFamily (a : String) : Bool :=
  a == "cab_extract" || a == "archive_extract" ||
  a == "install_cab_fonts" || a == "install_fonts" ||
  a == "copy_cab_dll" || a == "copy_dll"

/-- Result of the step loop: the final `has_no_uninstaller` flag, the
accumulated widget events and effects, and how the loop terminated. -/
structure LoopRes where
  flag : Bool
  events : List WEvent
  effects : List Effect
  outcome : HOutcome
deriving DecidableEq

/-- The step loop of `async_install`: steps run strictly in manifest
order; the `has_no_uninstaller` flag is set before the handler is called;
an abnormal handler outcome (exception or `exit()`) aborts the loop. -/
def runSteps (ext : Ext) (name : String) (widget : Bool) :
    List Step → Bool → LoopRes
  | [], flag => ⟨flag, [], [], .ok⟩
  | s :: rest, flag =>
    let flag' := flag || extractionFamily s.action
    let r := dispatch ext name widget s
    match r.outcome with
    | .ok =>
      let t := runSteps ext name widget rest flag'
      ⟨t.flag, r.events ++ t.events, r.effects ++ t.effects, t.outcome⟩
    | o => ⟨flag', r.events, r.effects, o⟩

/-- Post-loop update of `Installed_Dependencies` (lines 214-229): the name
is appended only when not already present; via `update_config` (modelled
from the spec as a plain field update, §6). -/
def recordInstalled (config : BottleConfig) (depName : String) : BottleConfig :=
  if config.Installed_Dependencies.contains depName then config
  else
    let deps := if config.Installed_Dependencies.isEmpty then [depName]
                else config.Installed_Dependencies ++ [depName]
    { config with Installed_Dependencies := deps }

/-- Post-loop update of `Uninstallers` (lines 231-247): entered when the
manifest declares a truthy `Uninstaller` or the flag is set; the flag
overrides the declared value with the sentinel.  In the branch the stored
value is always a string: the declared value is truthy when the flag is
false, so the `getD` default is never stored. -/
def recordUninstaller (config : BottleConfig) (depName : String)
    (m : Manifest) (flag : Bool) : BottleConfig :=
  if optTruthy m.Uninstaller || flag then
    let uninstaller := if flag then "NO_UNINSTALLER" else m.Uninstaller.getD ""
    { config with Uninstallers := setAssoc config.Uninstallers depName uninstaller }
  else config

/-- How `async_install` terminates: `return True`, `return False`, the
propagated `exit()` (SystemExit), or a propagated Python exception.  With
no widget the manifest-not-found path itself raises (`widget.set_installed`
attribute access on `None`). -/
inductive ExecResult
  | retTrue
  | retFalse
  | exited
  | raised
deriving DecidableEq

/-- Full observable result of one `async_install` call. -/
structure InstallRes where
  result : ExecResult
  config : BottleConfig
  events : List WEvent
  effects : List Effect
deriving DecidableEq

/-- The step executor `async_install` (lines 102-259).  The manifest
argument is the value returned by `get_dependency` for this dependency
(`none` models the falsy not-found result).  `widget` is whether a widget
handle was supplied. -/
def async_install (ext : Ext) (config : BottleConfig) (depName : String)
    (widget : Bool) (manifest : Option Manifest) : InstallRes :=
  match manifest with
  | none =>
    if widget then
      ⟨.retFalse, config, [WEvent.setInstalled false], preEffects config depName⟩
    else
      ⟨.raised, config, [], preEffects config depName⟩
  | some m =>
    let lr := runSteps ext config.Name widget m.Steps false
    match lr.outcome with
    | .exited => ⟨.exited, config, lr.events, preEffects config depName ++ lr.effects⟩
    | .raised => ⟨.raised, config, lr.events, preEffects config depName ++ lr.effects⟩
    | .ok =>
      let c2 := recordUninstaller (recordInstalled config depName) depName m lr.flag
      ⟨.retTrue, c2,
        lr.events ++ (if widget then [WEvent.setInstalled (!lr.flag)] else []),
        preEffects config depName ++ lr.effects ++ [Effect.removeDownload]⟩

/-- Sequential re-installation: `n` successive `async_install` calls on the
same manifest, each one running on the previous call's configuration. -/
def installN (ext : Ext) (depName : String) (widget : Bool) (m : Manifest) :
    Nat → BottleConfig → BottleConfig
  | 0, c => c
  | n + 1, c => installN ext depName widget m n
      ((async_install ext c depName widget (some m)).config)

/-- Oracles for `get_dependency`: the connectivity check, the repository
base URL, whether `urllib.request.urlopen` plus `read` succeeds for a URL,
the decoded text it yields, and whether/what `yaml.safe_load` parses. -/
structure FetchExt where
  checkConnection : Bool
  repoBase : String
  fetchOk : String → Bool
  fetchRaw : String → String
  parseYaml : String → Option Manifest

/-- Result of `get_dependency`: raw decoded text (`plain=True`), a parsed
manifest, or the falsy not-found value `False`. -/
inductive DepResult
  | rawText (s : String)
  | manifestDict (m : Manifest)
  | notFound
deriving DecidableEq

/-- The manifest resolver `get_dependency` (lines 46-77): a bare `except`
collapses every transport or parse failure into the not-found value. -/
def get_dependency (fx : FetchExt) (dependencyName dependencyCategory : String)
    (plain : Bool) : DepResult :=
  if fx.checkConnection then
    let url := fx.repoBase ++ "/" ++ dependencyCategory ++ "/" ++ dependencyName ++ ".yml"
    if fx.fetchOk url then
      if plain then .rawText (fx.fetchRaw url)
      else
        match fx.parseYaml (fx.fetchRaw url) with
        | some m => .manifestDict m
        | none => .notFound
    else .notFound
  else .notFound

/-! Concrete fixtures: oracle bundles and inputs used to evaluate the
embedding on closed instances. -/

/-- Oracle bundle in which every external operation succeeds, no staging
path pre-exists, globs are empty and the uninstaller listing is empty. -/
def extOk : Ext where
  pathsTemp := "/tmp/bottles/temp"
  pathsBottles := "/bottles"
  bottlePath := fun n => "/bottles/" ++ n
  download := fun _ _ _ _ => true
  cabRun := fun _ _ => true
  validUrl := fun u => pyStartsWith u "http"
  copyfileOk := fun _ _ => true
  extractOk := fun _ _ => true
  pathExists := fun _ => false
  globMatch := fun _ => []
  runCommandOut := fun _ _ => ""

/-- Oracle bundle in which every cabinet extraction fails. -/
def extCabFail : Ext := { extOk with cabRun := fun _ _ => false }

/-- Oracle bundle in which every download fails. -/
def extDlFail : Ext := { extOk with download := fun _ _ _ _ => false }

/-- Oracle bundle in which downloads and file copies fail. -/
def extAllFail : Ext :=
  { extOk with download := fun _ _ _ _ => false, copyfileOk := fun _ _ => false }

/-- Oracle bundle with a two-file glob result. -/
def extGlob : Ext :=
  { extOk with globMatch := fun _ =>
      ["/tmp/bottles/temp/pack/a.dll", "/tmp/bottles/temp/pack/b.dll"] }

/-- A bottle configuration with empty ledger fields. -/
def cfgEmpty (n : String) : BottleConfig := ⟨n, false, [], []⟩

/-- Manifest resolver oracle bundle: connected, fetch succeeds with fixed
raw text, parsing fails. -/
def fxW : FetchExt :=
  ⟨true, "https://repo.example/deps", fun _ => true, fun _ => "raw-text", fun _ => none⟩

/-! Helper lemmas about the embedding, shared by the claim proofs. -/

/-- Overwriting the `k` entry by map rewrites the first match. -/
theorem lookup_map_overwrite (k v : String) :
    ∀ m : List (String × String), m.any (fun p => p.1 == k) = true →
      (m.map (fun p => if p.1 == k then (k, v) else p)).lookup k = some v := by
  intro m
  induction m with
  | nil => intro h; simp at h
  | cons p t ih =>
    intro h
    obtain ⟨a, b⟩ := p
    by_cases hp : a = k
    · simp [hp, List.lookup_cons]
    · have hpb : (a == k) = false := by simp [hp]
      have hkb : (k == a) = false := by simp [Ne.symm hp]
      simp only [List.any_cons, hpb, Bool.false_or] at h
      simpa [hp, hkb, List.lookup_cons] using ih h

/-- Appending a fresh `k` entry makes it the found one when no prior entry
matches. -/
theorem lookup_append_fresh (k v : String) :
    ∀ m : List (String × String), m.any (fun p => p.1 == k) = false →
      (m ++ [(k, v)]).lookup k = some v := by
  intro m
  induction m with
  | nil => simp [List.lookup_cons]
  | cons p t ih =>
    intro h
    obtain ⟨a, b⟩ := p
    simp only [List.any_cons, Bool.or_eq_false_iff] at h
    have hkb : (k == a) = false := by
      have : ¬a = k := by
        intro hc
        simp [hc] at h
      simp [Ne.symm this]
    simpa [List.lookup_cons, hkb] using ih h.2

/-- After `setAssoc m k v`, looking up `k` yields `v`. -/
theorem lookup_setAssoc (m : List (String × String)) (k v : String) :
    (setAssoc m k v).lookup k = some v := by
  unfold setAssoc
  by_cases h : m.any (fun p => p.1 == k)
  · simpa [h] using lookup_map_overwrite k v m h
  · have h' : m.any (fun p => p.1 == k) = false := by
      exact Bool.not_eq_true _ ▸ (by simpa using h)
    simpa [h'] using lookup_append_fresh k v m h'

/-- When the loop completes, the final `has_no_uninstaller` flag is the
initial flag joined with whether any step is of the extraction family. -/
theorem runSteps_flag_ok (ext : Ext) (name : String) (w : Bool) :
    ∀ (steps : List Step) (flag : Bool),
      (runSteps ext name w steps flag).outcome = HOutcome.ok →
      (runSteps ext name w steps flag).flag
        = (flag || steps.any (fun s => extractionFamily s.action)) := by
  intro steps
  induction steps with
  | nil => intro flag _; simp [runSteps]
  | cons s rest ih =>
    intro flag h
    cases hr : (dispatch ext name w s).outcome with
    | ok =>
      simp only [runSteps, hr] at h ⊢
      rw [ih _ h]
      simp [List.any_cons, Bool.or_assoc]
    | exited => simp [runSteps, hr] at h
    | raised => simp [runSteps, hr] at h

/-- When every handler of the list returns normally, the loop completes and
its effect and event traces are the per-step traces in manifest order. -/
theorem runSteps_all_ok (ext : Ext) (name : String) (w : Bool) :
    ∀ (steps : List Step) (flag : Bool),
      (∀ s ∈ steps, (dispatch ext name w s).outcome = HOutcome.ok) →
      (runSteps ext name w steps flag).outcome = HOutcome.ok
      ∧ (runSteps ext name w steps flag).effects
          = (steps.map (fun s => (dispatch ext name w s).effects)).flatten
      ∧ (runSteps ext name w steps flag).events
          = (steps.map (fun s => (dispatch ext name w s).events)).flatten := by
  intro steps
  induction steps with
  | nil => intro flag _; simp [runSteps]
  | cons s rest ih =>
    intro flag hall
    have hs : (dispatch ext name w s).outcome = HOutcome.ok :=
      hall s (List.mem_cons_self s rest)
    have hrest := ih (flag || extractionFamily s.action)
      (fun x hx => hall x (List.mem_cons_of_mem s hx))
    simp only [runSteps, hs]
    simp [hrest.1, hrest.2.1, hrest.2.2]

/-- `recordInstalled` appends the name exactly when it is absent. -/
theorem recordInstalled_deps (c : BottleConfig) (d : String) :
    (recordInstalled c d).Installed_Dependencies
      = (if c.Installed_Dependencies.contains d then c.Installed_Dependencies
         else c.Installed_Dependencies ++ [d]) := by
  by_cases h : d ∈ c.Installed_Dependencies
  · simp [recordInstalled, h]
  · rcases hl : c.Installed_Dependencies with _ | ⟨x, xs⟩
    · rw [hl] at h
      simp [recordInstalled, hl]
    · rw [hl] at h
      simp [recordInstalled, hl, h]

/-- `recordInstalled` only touches `Installed_Dependencies`. -/
theorem recordInstalled_Name (c : BottleConfig) (d : String) :
    (recordInstalled c d).Name = c.Name := by
  by_cases h : d ∈ c.Installed_Dependencies <;> simp [recordInstalled, h]

/-- `recordInstalled` leaves the uninstaller mapping unchanged. -/
theorem recordInstalled_Uninstallers (c : BottleConfig) (d : String) :
    (recordInstalled c d).Uninstallers = c.Uninstallers := by
  by_cases h : d ∈ c.Installed_Dependencies <;> simp [recordInstalled, h]

/-- `recordUninstaller` only touches `Uninstallers`. -/
theorem recordUninstaller_Name (c : BottleConfig) (d : String)
    (m : Manifest) (flag : Bool) :
    (recordUninstaller c d m flag).Name = c.Name := by
  unfold recordUninstaller
  by_cases h : (optTruthy m.Uninstaller || flag) = true <;> simp [h]

/-- `recordUninstaller` leaves the installed-dependency list unchanged. -/
theorem recordUninstaller_deps (c : BottleConfig) (d : String)
    (m : Manifest) (flag : Bool) :
    (recordUninstaller c d m flag).Installed_Dependencies
      = c.Installed_Dependencies := by
  unfold recordUninstaller
  by_cases h : (optTruthy m.Uninstaller || flag) = true <;> simp [h]

/-- With the flag set, `recordUninstaller` stores the sentinel. -/
theorem recordUninstaller_flag (c : BottleConfig) (d : String) (m : Manifest) :
    ((recordUninstaller c d m true).Uninstallers).lookup d
      = some "NO_UNINSTALLER" := by
  unfold recordUninstaller
  simp [lookup_setAssoc]

/-- With no declared uninstaller and the flag clear, `recordUninstaller`
is the identity. -/
theorem recordUninstaller_skip (c : BottleConfig) (d : String) (m : Manifest)
    (h : optTruthy m.Uninstaller = false) :
    recordUninstaller c d m false = c := by
  unfold recordUninstaller
  simp [h]

/-- Unfolding of `async_install` when the step loop completes. -/
theorem async_install_eq_of_ok (ext : Ext) (c : BottleConfig) (dep : String)
    (w : Bool) (m : Manifest)
    (h : (runSteps ext c.Name w m.Steps false).outcome = HOutcome.ok) :
    async_install ext c dep w (some m) =
      ⟨ExecResult.retTrue,
       recordUninstaller (recordInstalled c dep) dep m
         (runSteps ext c.Name w m.Steps false).flag,
       (runSteps ext c.Name w m.Steps false).events
         ++ (if w then [WEvent.setInstalled (!(runSteps ext c.Name w m.Steps false).flag)]
             else []),
       preEffects c dep ++ (runSteps ext c.Name w m.Steps false).effects
         ++ [Effect.removeDownload]⟩ := by
  simp only [async_install, h]

/-- Unfolding of `async_install` when the step loop hits the `exit()` call. -/
theorem async_install_eq_of_exited (ext : Ext) (c : BottleConfig) (dep : String)
    (w : Bool) (m : Manifest)
    (h : (runSteps ext c.Name w m.Steps false).outcome = HOutcome.exited) :
    async_install ext c dep w (some m) =
      ⟨ExecResult.exited, c, (runSteps ext c.Name w m.Steps false).events,
       preEffects c dep ++ (runSteps ext c.Name w m.Steps false).effects⟩ := by
  simp only [async_install, h]

/-- Unfolding of `async_install` when a handler exception propagates. -/
theorem async_install_eq_of_raised (ext : Ext) (c : BottleConfig) (dep : String)
    (w : Bool) (m : Manifest)
    (h : (runSteps ext c.Name w m.Steps false).outcome = HOutcome.raised) :
    async_install ext c dep w (some m) =
      ⟨ExecResult.raised, c, (runSteps ext c.Name w m.Steps false).events,
       preEffects c dep ++ (runSteps ext c.Name w m.Steps false).effects⟩ := by
  simp only [async_install, h]

/-- `async_install` never changes the bottle's name. -/
theorem async_install_Name (ext : Ext) (c : BottleConfig) (dep : String)
    (w : Bool) (om : Option Manifest) :
    (async_install ext c dep w om).config.Name = c.Name := by
  cases om with
  | none => by_cases hw : w <;> simp [async_install, hw]
  | some m =>
    cases h : (runSteps ext c.Name w m.Steps false).outcome with
    | ok =>
      rw [async_install_eq_of_ok ext c dep w m h]
      simp [recordUninstaller_Name, recordInstalled_Name]
    | exited => rw [async_install_eq_of_exited ext c dep w m h]
    | raised => rw [async_install_eq_of_raised ext c dep w m h]

/-- All glob-matched copies succeed: the wildcard copy loop records one
copy per match, into the destination directory under the match's base
name. -/
theorem copyGlobFiles_all_ok (ext : Ext) (destDir : String) :
    ∀ files : List String,
      (∀ f ∈ files, ext.copyfileOk f (destDir ++ "/" ++ basename f) = true) →
      copyGlobFiles ext destDir files
        = (files.map (fun fg => Effect.copyfile fg (destDir ++ "/" ++ basename fg)),
           true) := by
  intro files
  induction files with
  | nil => intro _; simp [copyGlobFiles]
  | cons f rest ih =>
    intro hall
    have hf := hall f (List.mem_cons_self f rest)
    have hrest := ih (fun x hx => hall x (List.mem_cons_of_mem f hx))
    simp [copyGlobFiles, hf, hrest]

/-! Claim theorems. -/

/-- C2: when manifest resolution returns the not-found value,
`async_install` returns `False` and performs zero environment mutation —
no step handler runs (the effect trace holds only the pre-resolution
snapshot/download-entry actions), `Installed_Dependencies` and
`Uninstallers` are exactly unchanged — and a resolved manifest never makes
the executor return `False`, so manifest absence is its only hard-abort
(report-failure) condition. -/
theorem c2_manifest_not_found (ext : Ext) (c : BottleConfig) (dep : String) :
    (async_install ext c dep true none).result = ExecResult.retFalse
    ∧ (async_install ext c dep true none).config = c
    ∧ (async_install ext c dep true none).events = [WEvent.setInstalled false]
    ∧ (async_install ext c dep true none).effects = preEffects c dep
    ∧ (∀ w, (async_install ext c dep w none).config = c)
    ∧ (∀ (w : Bool) (m : Manifest),
        (async_install ext c dep w (some m)).result ≠ ExecResult.retFalse) := by
  refine ⟨rfl, rfl, rfl, rfl, ?_, ?_⟩
  · intro w
    by_cases hw : w = true <;> simp [async_install, hw]
  · intro w m
    cases h : (runSteps ext c.Name w m.Steps false).outcome with
    | ok => rw [async_install_eq_of_ok ext c dep w m h]; simp
    | exited => rw [async_install_eq_of_exited ext c dep w m h]; simp
    | raised => rw [async_install_eq_of_raised ext c dep w m h]; simp

/-- C2 witness: the theorem instantiated on a concrete configuration. -/
theorem c2_manifest_not_found_witness :
    (async_install extOk (cfgEmpty "bw2") "depW2" true none).result
      = ExecResult.retFalse :=
  (c2_manifest_not_found extOk (cfgEmpty "bw2") "depW2").1

/-- C6: for a manifest that declares no `Uninstaller` value and contains no
extraction-family step (`cab_extract`, `archive_extract`,
`install_fonts`/`install_cab_fonts`, `copy_dll`/`copy_cab_dll`),
`async_install` writes no uninstaller entry: the `Uninstallers` mapping is
left exactly unchanged. -/
theorem c6_no_uninstaller_entry (ext : Ext) (c : BottleConfig) (dep : String)
    (w : Bool) (m : Manifest)
    (hu : m.Uninstaller = none)
    (hfam : m.Steps.any (fun s => extractionFamily s.action) = false) :
    (async_install ext c dep w (some m)).config.Uninstallers = c.Uninstallers := by
  cases hlr : (runSteps ext c.Name w m.Steps false).outcome with
  | exited => rw [async_install_eq_of_exited ext c dep w m hlr]
  | raised => rw [async_install_eq_of_raised ext c dep w m hlr]
  | ok =>
    rw [async_install_eq_of_ok ext c dep w m hlr]
    have hflag : (runSteps ext c.Name w m.Steps false).flag = false := by
      rw [runSteps_flag_ok ext c.Name w m.Steps false hlr]
      simp [hfam]
    show (recordUninstaller (recordInstalled c dep) dep m
      (runSteps ext c.Name w m.Steps false).flag).Uninstallers = c.Uninstallers
    rw [hflag, recordUninstaller_skip _ _ _ (by rw [hu]; rfl)]
    exact recordInstalled_Uninstallers c dep

/-- C6 witness: a one-step registry-write manifest with no declared
uninstaller leaves the uninstaller mapping empty. -/
theorem c6_no_uninstaller_entry_witness :
    ((⟨[{ action := "set_register_key", key := some "K", value := some "V",
          data := some "D" }], none⟩ : Manifest).Uninstaller = none)
    ∧ (async_install extOk (cfgEmpty "bw6") "depW6" true
        (some ⟨[{ action := "set_register_key", key := some "K", value := some "V",
                  data := some "D" }], none⟩)).config.Uninstallers
        = (cfgEmpty "bw6").Uninstallers :=
  ⟨rfl, c6_no_uninstaller_entry extOk (cfgEmpty "bw6") "depW6" true
    ⟨[{ action := "set_register_key", key := some "K", value := some "V",
        data := some "D" }], none⟩ rfl (by decide)⟩

/-- C8: `get_dependency` returns the not-found value on every transport or
parse failure — no connection, failed fetch, and unparsable YAML all
collapse to the same `notFound` result — and with `plain = true` and a
successful fetch it returns the manifest's raw decoded text. -/
theorem c8_get_dependency_collapse (fx : FetchExt) (nm cat : String) (plain : Bool) :
    (fx.checkConnection = false →
      get_dependency fx nm cat plain = DepResult.notFound)
    ∧ (fx.fetchOk (fx.repoBase ++ "/" ++ cat ++ "/" ++ nm ++ ".yml") = false →
      get_dependency fx nm cat plain = DepResult.notFound)
    ∧ (plain = false →
      fx.parseYaml (fx.fetchRaw (fx.repoBase ++ "/" ++ cat ++ "/" ++ nm ++ ".yml"))
        = none →
      get_dependency fx nm cat plain = DepResult.notFound)
    ∧ (plain = true → fx.checkConnection = true →
      fx.fetchOk (fx.repoBase ++ "/" ++ cat ++ "/" ++ nm ++ ".yml") = true →
      get_dependency fx nm cat plain
        = DepResult.rawText
            (fx.fetchRaw (fx.repoBase ++ "/" ++ cat ++ "/" ++ nm ++ ".yml"))) := by
  refine ⟨?_, ?_, ?_, ?_⟩
  · intro h
    simp [get_dependency, h]
  · intro h
    by_cases hc : fx.checkConnection = true <;> simp [get_dependency, hc, h]
  · intro hp hparse
    by_cases hc : fx.checkConnection = true
    · by_cases hf : fx.fetchOk (fx.repoBase ++ "/" ++ cat ++ "/" ++ nm ++ ".yml") = true <;>
        simp [get_dependency, hc, hf, hp, hparse]
    · simp [get_dependency, hc]
  · intro hp hc hf
    simp [get_dependency, hp, hc, hf]

/-- C8 witness: with a successful fetch and `plain = true`, the raw decoded
text is returned. -/
theorem c8_get_dependency_collapse_witness :
    get_dependency fxW "dxvk" "utilities" true = DepResult.rawText "raw-text" := by
  simpa using (c8_get_dependency_collapse fxW "dxvk" "utilities" true).2.2.2 rfl rfl rfl

/-- C9 counterexample: with a resolved manifest whose only step is a
`cab_extract` on a pre-staged `temp/` path whose extraction fails, the
handler's `exit()` propagates and `async_install` does not return `True`
(it does not return at all), refuting the claim that a successfully
resolved manifest always yields `True`. -/
theorem c9_returns_true_counterexample :
    (async_install extCabFail (cfgEmpty "b9") "dep9" true
      (some ⟨[{ action := "cab_extract", url := some "temp/p9",
                file_name := some "p9.cab" }], none⟩)).result
      ≠ ExecResult.retTrue := by
  decide

/-- C9 (amended): whenever the manifest is resolved and the step loop runs
to completion (no handler raises and no `cab_extract` `exit()` fires),
`async_install` returns `True` for every oracle bundle, configuration and
manifest — its result never reflects the success or failure that handlers
signal through return values, so a run whose every step failed softly still
reports `True`. -/
theorem c9_returns_true_amended (ext : Ext) (c : BottleConfig) (dep : String)
    (w : Bool) (m : Manifest)
    (hok : (runSteps ext c.Name w m.Steps false).outcome = HOutcome.ok) :
    (async_install ext c dep w (some m)).result = ExecResult.retTrue := by
  rw [async_install_eq_of_ok ext c dep w m hok]

/-- C9 witness: a manifest whose two steps both fail softly (failed
installer download, file-not-found DLL copy) still reports `True`. -/
theorem c9_returns_true_witness :
    ((runSteps extAllFail (cfgEmpty "bw9").Name true
        [{ action := "install_exe", url := some "http://h/s.exe",
           file_name := some "s.exe" },
         { action := "copy_dll", url := some "temp/pk",
           file_name := some "c.dll", dest := some "windows/system32/c.dll" }]
        false).outcome = HOutcome.ok)
    ∧ (async_install extAllFail (cfgEmpty "bw9") "depW9" true
        (some ⟨[{ action := "install_exe", url := some "http://h/s.exe",
                  file_name := some "s.exe" },
                { action := "copy_dll", url := some "temp/pk",
                  file_name := some "c.dll", dest := some "windows/system32/c.dll" }],
               none⟩)).result = ExecResult.retTrue :=
  ⟨by decide, c9_returns_true_amended extAllFail (cfgEmpty "bw9") "depW9" true
    ⟨[{ action := "install_exe", url := some "http://h/s.exe",
        file_name := some "s.exe" },
      { action := "copy_dll", url := some "temp/pk",
        file_name := some "c.dll", dest := some "windows/system32/c.dll" }],
     none⟩ (by decide)⟩

/-- One completed run leaves the dependency's name listed exactly once,
provided it was listed at most once before. -/
theorem count_after_run (ext : Ext) (c : BottleConfig) (dep : String) (w : Bool)
    (m : Manifest)
    (hok : (runSteps ext c.Name w m.Steps false).outcome = HOutcome.ok)
    (h2 : c.Installed_Dependencies.count dep ≤ 1) :
    ((async_install ext c dep w (some m)).config.Installed_Dependencies).count dep
      = 1 := by
  rw [async_install_eq_of_ok ext c dep w m hok]
  show ((recordUninstaller (recordInstalled c dep) dep m
    (runSteps ext c.Name w m.Steps false).flag).Installed_Dependencies).count dep = 1
  rw [recordUninstaller_deps, recordInstalled_deps]
  by_cases hc : dep ∈ c.Installed_Dependencies
  · have h1 : 0 < c.Installed_Dependencies.count dep := List.count_pos_iff.mpr hc
    have hcb : c.Installed_Dependencies.contains dep = true :=
      List.elem_eq_true_of_mem hc
    rw [if_pos hcb]
    omega
  · have h0 : c.Installed_Dependencies.count dep = 0 := by
      simp [List.count_eq_zero, hc]
    have hcb : ¬c.Installed_Dependencies.contains dep = true := fun hcb =>
      hc (List.mem_of_elem_eq_true hcb)
    rw [if_neg hcb, List.count_append, h0]
    simp

/-- C1 counterexample: a manifest containing a `cab_extract` step (with a
declared `Uninstaller`) on which the handler's `exit()` fires: the post-loop
uninstaller write is never reached, so no `NO_UNINSTALLER` entry is
recorded, refuting "regardless of whether those step handlers themselves
succeed or fail". -/
theorem c1_sentinel_counterexample :
    ((async_install extCabFail (cfgEmpty "b1") "dep1" true
      (some ⟨[{ action := "cab_extract", url := some "temp/p1",
                file_name := some "p1.cab" }], some "Setup1"⟩)).config.Uninstallers).lookup
      "dep1" ≠ some "NO_UNINSTALLER" := by
  decide

/-- C1 (amended): for every manifest containing at least one
extraction-family step (`cab_extract`, `archive_extract`,
`install_fonts`/`install_cab_fonts`, `copy_dll`/`copy_cab_dll`), provided
the step loop runs to completion, `async_install` records the sentinel
`NO_UNINSTALLER` as the dependency's uninstaller reference, regardless of a
declared `Uninstaller` value and regardless of the handlers' soft
success/failure (the flag is set before the handler runs); an abort
(`cab_extract` `exit()` or a propagated exception) skips the post-loop
write. -/
theorem c1_sentinel_amended (ext : Ext) (c : BottleConfig) (dep : String)
    (w : Bool) (m : Manifest)
    (hfam : m.Steps.any (fun s => extractionFamily s.action) = true)
    (hok : (runSteps ext c.Name w m.Steps false).outcome = HOutcome.ok) :
    ((async_install ext c dep w (some m)).config.Uninstallers).lookup dep
      = some "NO_UNINSTALLER" := by
  rw [async_install_eq_of_ok ext c dep w m hok]
  have hflag : (runSteps ext c.Name w m.Steps false).flag = true := by
    rw [runSteps_flag_ok ext c.Name w m.Steps false hok]
    simp [hfam]
  show ((recordUninstaller (recordInstalled c dep) dep m
    (runSteps ext c.Name w m.Steps false).flag).Uninstallers).lookup dep
    = some "NO_UNINSTALLER"
  rw [hflag]
  exact recordUninstaller_flag _ _ _

/-- C1 witness: an `archive_extract` manifest with a declared uninstaller
whose loop completes records the sentinel, overriding the declared value. -/
theorem c1_sentinel_witness :
    ((⟨[{ action := "archive_extract", url := some "http://h/pack.zip",
          file_name := some "pack.zip" }], some "Custom"⟩ : Manifest).Steps.any
        (fun s => extractionFamily s.action) = true)
    ∧ ((async_install extOk (cfgEmpty "bw1") "depW1" true
        (some ⟨[{ action := "archive_extract", url := some "http://h/pack.zip",
                  file_name := some "pack.zip" }], some "Custom"⟩)).config.Uninstallers).lookup
        "depW1" = some "NO_UNINSTALLER" :=
  ⟨by decide, c1_sentinel_amended extOk (cfgEmpty "bw1") "depW1" true
    ⟨[{ action := "archive_extract", url := some "http://h/pack.zip",
        file_name := some "pack.zip" }], some "Custom"⟩ (by decide) (by decide)⟩

/-- C5: at the end of a successful `async_install` (one that returns
`True`), the widget observer's final call is `set_installed(True)` when
`has_no_uninstaller` is false and `set_installed(False)` when it is true,
even though in the latter case the dependency's name has still been
recorded in `Installed_Dependencies`. -/
theorem c5_widget_report (ext : Ext) (c : BottleConfig) (dep : String)
    (m : Manifest)
    (h : (async_install ext c dep true (some m)).result = ExecResult.retTrue) :
    (async_install ext c dep true (some m)).events.getLast?
      = some (WEvent.setInstalled (!(runSteps ext c.Name true m.Steps false).flag))
    ∧ (async_install ext c dep true (some m)).config.Installed_Dependencies.contains
        dep = true := by
  cases hlr : (runSteps ext c.Name true m.Steps false).outcome with
  | exited =>
    rw [async_install_eq_of_exited ext c dep true m hlr] at h
    simp at h
  | raised =>
    rw [async_install_eq_of_raised ext c dep true m hlr] at h
    simp at h
  | ok =>
    rw [async_install_eq_of_ok ext c dep true m hlr]
    constructor
    · show ((runSteps ext c.Name true m.Steps false).events
        ++ (if true then [WEvent.setInstalled (!(runSteps ext c.Name true m.Steps false).flag)]
            else [])).getLast? = _
      rw [if_pos rfl, List.getLast?_concat]
    · show ((recordUninstaller (recordInstalled c dep) dep m
        (runSteps ext c.Name true m.Steps false).flag).Installed_Dependencies).contains
        dep = true
      rw [recordUninstaller_deps, recordInstalled_deps]
      by_cases hc : dep ∈ c.Installed_Dependencies
      · simp [hc]
      · simp [hc]

/-- C5 witness: a `copy_dll` manifest that completes reports
`set_installed(False)` as the final widget event while the dependency is
recorded as installed. -/
theorem c5_widget_report_witness :
    ((async_install extOk (cfgEmpty "bw5") "depW5" true
        (some ⟨[{ action := "copy_dll", url := some "temp/cab5",
                  file_name := some "a.dll",
                  dest := some "windows/system32/a.dll" }], none⟩)).result
      = ExecResult.retTrue)
    ∧ (async_install extOk (cfgEmpty "bw5") "depW5" true
        (some ⟨[{ action := "copy_dll", url := some "temp/cab5",
                  file_name := some "a.dll",
                  dest := some "windows/system32/a.dll" }], none⟩)).events.getLast?
        = some (WEvent.setInstalled
            (!(runSteps extOk (cfgEmpty "bw5").Name true
                [{ action := "copy_dll", url := some "temp/cab5",
                   file_name := some "a.dll",
                   dest := some "windows/system32/a.dll" }] false).flag)) :=
  ⟨by decide, (c5_widget_report extOk (cfgEmpty "bw5") "depW5"
    ⟨[{ action := "copy_dll", url := some "temp/cab5", file_name := some "a.dll",
        dest := some "windows/system32/a.dll" }], none⟩ (by decide)).1⟩

/-- C3 counterexample: on an environment already listing the dependency
name twice, a run leaves it listed twice — the name does not appear exactly
once afterwards, refuting the claim for every manifest and environment. -/
theorem c3_idempotent_counterexample :
    ((installN extOk "dep3" true ⟨[], none⟩ 1
      ⟨"b3", false, ["dep3", "dep3"], []⟩).Installed_Dependencies).count "dep3"
      ≠ 1 := by
  decide

/-- C3 (amended): sequential repeated `async_install` runs on the same
`(M, E)` are idempotent on the installed-dependency set, provided each
run's step loop completes without aborting and the environment initially
lists the name at most once: the name is appended only when not already
present, no duplicate is ever appended, and after any positive number of
runs it appears exactly once. -/
theorem c3_idempotent_amended (ext : Ext) (dep : String) (w : Bool) (m : Manifest) :
    ∀ (n : Nat) (c : BottleConfig),
      (runSteps ext c.Name w m.Steps false).outcome = HOutcome.ok →
      c.Installed_Dependencies.count dep ≤ 1 →
      ((installN ext dep w m (n + 1) c).Installed_Dependencies).count dep = 1 := by
  intro n
  induction n with
  | zero =>
    intro c hok h2
    exact count_after_run ext c dep w m hok h2
  | succ k ih =>
    intro c hok h2
    have hname := async_install_Name ext c dep w (some m)
    have hcount := count_after_run ext c dep w m hok h2
    exact ih ((async_install ext c dep w (some m)).config)
      (by rw [hname]; exact hok) (le_of_eq hcount)

/-- C3 witness: three successive runs of an empty-step manifest on an empty
environment leave the name listed exactly once. -/
theorem c3_idempotent_witness :
    ((runSteps extOk (cfgEmpty "bw3").Name true
        (⟨[], none⟩ : Manifest).Steps false).outcome = HOutcome.ok)
    ∧ ((cfgEmpty "bw3").Installed_Dependencies.count "depW3" ≤ 1)
    ∧ ((installN extOk "depW3" true ⟨[], none⟩ 3
        (cfgEmpty "bw3")).Installed_Dependencies).count "depW3" = 1 :=
  ⟨by decide, by decide,
   c3_idempotent_amended extOk "depW3" true ⟨[], none⟩ 2 (cfgEmpty "bw3")
     (by decide) (by decide)⟩

/-- C4 counterexample: a single-step `install_exe` manifest whose download
fails: the executor does NOT return early — the handler's `False` is
discarded, the widget's install button is re-enabled, the dependency is
recorded, the final event is `set_installed(True)` and the call returns
`True`, refuting the claimed early return for the top-level single step. -/
theorem c4_no_short_circuit_counterexample :
    (async_install extDlFail (cfgEmpty "b4") "dep4" true
      (some ⟨[{ action := "install_exe", url := some "http://x/s.exe",
                file_name := some "s.exe" }], some "Setup4"⟩)).result
      = ExecResult.retTrue
    ∧ (async_install extDlFail (cfgEmpty "b4") "dep4" true
        (some ⟨[{ action := "install_exe", url := some "http://x/s.exe",
                  file_name := some "s.exe" }], some "Setup4"⟩)).config.Installed_Dependencies
        = ["dep4"]
    ∧ (async_install extDlFail (cfgEmpty "b4") "dep4" true
        (some ⟨[{ action := "install_exe", url := some "http://x/s.exe",
                  file_name := some "s.exe" }], some "Setup4"⟩)).events
        = [WEvent.btnInstallSensitive, WEvent.setInstalled true] := by
  decide

/-- C4 (amended): a hard failure signaled through a handler's return value
never aborts the remaining steps — when every handler returns normally the
executor processes all steps in manifest order (its effect trace is the
per-step traces concatenated in order) and returns `True`; in particular
the `install_exe`/`install_msi` download-failure path re-enables the
widget's install button and returns `False` from the handler only, a value
the executor discards — it never returns early from the whole executor
(the only aborts are propagated exceptions and the `cab_extract`
`exit()`). -/
theorem c4_no_short_circuit_amended (ext : Ext) (c : BottleConfig) (dep : String)
    (w : Bool) (m : Manifest)
    (hall : ∀ s ∈ m.Steps, (dispatch ext c.Name w s).outcome = HOutcome.ok) :
    (async_install ext c dep w (some m)).result = ExecResult.retTrue
    ∧ (async_install ext c dep w (some m)).effects
        = preEffects c dep
          ++ (m.Steps.map (fun s => (dispatch ext c.Name w s).effects)).flatten
          ++ [Effect.removeDownload]
    ∧ (∀ s : Step, (s.action = "install_exe" ∨ s.action = "install_msi") →
        ext.download s.url s.file_name s.rename s.file_checksum = false →
        (dispatch ext c.Name w s).outcome = HOutcome.ok
        ∧ (dispatch ext c.Name w s).ret = some false
        ∧ (dispatch ext c.Name w s).events
            = (if w then [WEvent.btnInstallSensitive] else [])) := by
  obtain ⟨hok, heff, -⟩ := runSteps_all_ok ext c.Name w m.Steps false hall
  refine ⟨?_, ?_, ?_⟩
  · rw [async_install_eq_of_ok ext c dep w m hok]
  · rw [async_install_eq_of_ok ext c dep w m hok]
    show preEffects c dep ++ (runSteps ext c.Name w m.Steps false).effects
        ++ [Effect.removeDownload] = _
    rw [heff]
  · intro s hs hdl
    have hd : dispatch ext c.Name w s = step_install_exe_msi ext w s := by
      rcases hs with h | h <;> simp [dispatch, h]
    rw [hd]
    unfold step_install_exe_msi
    simp [hdl]

/-- C4 witness: a two-step manifest whose `install_msi` download fails
still has every handler return normally and the executor complete with
`True`. -/
theorem c4_no_short_circuit_witness :
    (∀ s ∈ ([{ action := "install_msi", url := some "http://y/t.msi",
               file_name := some "t.msi" },
             { action := "register_font", name := some "F4",
               file := some "f4.ttf" }] : List Step),
      (dispatch extDlFail (cfgEmpty "bw4").Name true s).outcome = HOutcome.ok)
    ∧ (async_install extDlFail (cfgEmpty "bw4") "depW4" true
        (some ⟨[{ action := "install_msi", url := some "http://y/t.msi",
                  file_name := some "t.msi" },
                { action := "register_font", name := some "F4",
                  file := some "f4.ttf" }], none⟩)).result = ExecResult.retTrue :=
  ⟨by decide,
   (c4_no_short_circuit_amended extDlFail (cfgEmpty "bw4") "depW4" true
     ⟨[{ action := "install_msi", url := some "http://y/t.msi",
         file_name := some "t.msi" },
       { action := "register_font", name := some "F4", file := some "f4.ttf" }],
      none⟩ (by decide)).1⟩

/-- C7 counterexample: a `cab_extract` step with a pre-staged `temp/` url
whose extraction fails, followed by a `register_font` step: the executor
aborts through `exit()` — the second step's registry write never happens —
refuting the claim that the outer step loop continues with the next
step. -/
theorem c7_cab_exit_counterexample :
    (async_install extCabFail (cfgEmpty "b7") "dep7" true
      (some ⟨[{ action := "cab_extract", url := some "temp/pack7",
                file_name := some "pkg7.cab" },
              { action := "register_font", name := some "F7",
                file := some "f7.ttf" }], none⟩)).result = ExecResult.exited
    ∧ (Effect.regAdd
        (some "HKEY_LOCAL_MACHINE\\Software\\Microsoft\\Windows NT\\CurrentVersion\\Fonts")
        (some "F7") (some "f7.ttf") none)
      ∉ (async_install extCabFail (cfgEmpty "b7") "dep7" true
          (some ⟨[{ action := "cab_extract", url := some "temp/pack7",
                    file_name := some "pkg7.cab" },
                  { action := "register_font", name := some "F7",
                    file := some "f7.ttf" }], none⟩)).effects := by
  decide

/-- C7 (amended): in the `cab_extract` handler, when the step's url is a
pre-staged `temp/` path (not a validated URL) and extraction fails, the
failure is fatal to the WHOLE executor, not just the step: the handler
marks the widget error state and calls `exit()`, so the remaining handler
work halts AND the outer step loop does not continue — no subsequent step
runs and the loop terminates with the `exit` outcome. -/
theorem c7_cab_exit_amended (ext : Ext) (name : String) (w : Bool) (s : Step)
    (rest : List Step) (flag : Bool) (u : String)
    (ha : s.action = "cab_extract") (hu : s.url = some u)
    (hv : ext.validUrl u = false) (ht : pyStartsWith u "temp/" = true)
    (hc : ext.cabRun
            ((pyReplace u "temp/" (ext.pathsTemp ++ "/")) ++ "/" ++ pyStr s.file_name)
            (if optTruthy s.rename then splitextBase (pyStr s.rename)
             else splitextBase (pyStr s.file_name)) = false) :
    (runSteps ext name w (s :: rest) flag).outcome = HOutcome.exited
    ∧ (runSteps ext name w (s :: rest) flag).events
        = (if w then [WEvent.setErr] else [])
    ∧ (runSteps ext name w (s :: rest) flag).effects
        = [Effect.cabExtract
            ((pyReplace u "temp/" (ext.pathsTemp ++ "/")) ++ "/" ++ pyStr s.file_name)
            (if optTruthy s.rename then splitextBase (pyStr s.rename)
             else splitextBase (pyStr s.file_name))] := by
  have hdisp : dispatch ext name w s
      = { outcome := .exited, events := (if w then [WEvent.setErr] else []),
          effects := [Effect.cabExtract
            ((pyReplace u "temp/" (ext.pathsTemp ++ "/")) ++ "/" ++ pyStr s.file_name)
            (if optTruthy s.rename then splitextBase (pyStr s.rename)
             else splitextBase (pyStr s.file_name))], ret := none } := by
    simp [dispatch, ha, step_cab_extract, hu, hv, ht, hc]
  refine ⟨?_, ?_, ?_⟩ <;> simp [runSteps, hdisp]

/-- C7 witness: the amended behavior evaluated on a concrete two-step
manifest: the loop terminates with the `exit` outcome at the first step. -/
theorem c7_cab_exit_witness :
    (extCabFail.validUrl "temp/w7" = false)
    ∧ (runSteps extCabFail "bw7" true
        ([{ action := "cab_extract", url := some "temp/w7",
            file_name := some "w7.cab" },
          { action := "set_register_key", key := some "K7", value := some "V7",
            data := some "D7" }] : List Step) false).outcome = HOutcome.exited :=
  ⟨by decide,
   (c7_cab_exit_amended extCabFail "bw7" true
     { action := "cab_extract", url := some "temp/w7", file_name := some "w7.cab" }
     [{ action := "set_register_key", key := some "K7", value := some "V7",
        data := some "D7" }]
     false "temp/w7" rfl rfl (by decide) (by decide) (by decide)).1⟩

/-- C10: in the `copy_dll` handler the meaning of `dest` depends on the
shape of `file_name`: with a wildcard `*`, each glob-matched file is copied
into `drive_c/{dest}/` with its own base name appended; without a wildcard,
the single file is copied to `drive_c/{dest}` used verbatim as the full
target path, with no file name appended. -/
theorem c10_copy_dll_dest (ext : Ext) (name u fn d : String) :
    (pyContainsChar fn '*' = true →
      (∀ f ∈ ext.globMatch ((pyReplace u "temp/" (ext.pathsTemp ++ "/")) ++ "/" ++ fn),
        ext.copyfileOk f
          (ext.bottlePath name ++ "/drive_c/" ++ d ++ "/" ++ basename f) = true) →
      (step_copy_dll ext name
        { action := "copy_dll", url := some u, file_name := some fn,
          dest := some d }).effects
        = (ext.globMatch ((pyReplace u "temp/" (ext.pathsTemp ++ "/")) ++ "/" ++ fn)).map
            (fun fg => Effect.copyfile fg
              (ext.bottlePath name ++ "/drive_c/" ++ d ++ "/" ++ basename fg)))
    ∧ (pyContainsChar fn '*' = false →
      ext.copyfileOk ((pyReplace u "temp/" (ext.pathsTemp ++ "/")) ++ "/" ++ fn)
        (ext.bottlePath name ++ "/drive_c/" ++ d) = true →
      (step_copy_dll ext name
        { action := "copy_dll", url := some u, file_name := some fn,
          dest := some d }).effects
        = [Effect.copyfile ((pyReplace u "temp/" (ext.pathsTemp ++ "/")) ++ "/" ++ fn)
            (ext.bottlePath name ++ "/drive_c/" ++ d)]) := by
  constructor
  · intro hw hall
    have hcopy := copyGlobFiles_all_ok ext (ext.bottlePath name ++ "/drive_c/" ++ d)
      (ext.globMatch ((pyReplace u "temp/" (ext.pathsTemp ++ "/")) ++ "/" ++ fn)) hall
    simp [step_copy_dll, pyStr, hw, hcopy]
  · intro hw hcp
    simp [step_copy_dll, pyStr, hw, hcp]

/-- C10 witness: the wildcard branch evaluated on a concrete two-match
glob: each match lands in the destination directory under its base name. -/
theorem c10_copy_dll_dest_witness :
    (pyContainsChar "*.dll" '*' = true)
    ∧ (step_copy_dll extGlob "bw10"
        { action := "copy_dll", url := some "temp/pack", file_name := some "*.dll",
          dest := some "windows/system32" }).effects
        = (extGlob.globMatch
            ((pyReplace "temp/pack" "temp/" (extGlob.pathsTemp ++ "/")) ++ "/" ++ "*.dll")).map
            (fun fg => Effect.copyfile fg
              (extGlob.bottlePath "bw10" ++ "/drive_c/" ++ "windows/system32" ++ "/"
                ++ basename fg)) :=
  ⟨by decide,
   (c10_copy_dll_dest extGlob "bw10" "temp/pack" "*.dll" "windows/system32").1
     (by decide) (by decide)⟩

end Bottles
